import Mathlib

/-!
Verification of the Content Cloud client access-token issuer
(`generateAccessToken` and its supporting declarations).

The development shallowly embeds the issuer: JavaScript runtime behaviour
that the issuer relies on (string truthiness, template interpolation of
`undefined`, `String.prototype.split`, the Node base64 decoder, UTF-8
decoding of byte buffers, and WHATWG URL hostname extraction) is modelled by
executable Lean functions, and the issuer itself is translated line by line.
The external JWT signer is modelled by recording the exact inputs handed to
it (algorithm, key material, key id, claims), since the source delegates the
actual signing to the `jsonwebtoken` collaborator.
-/

/-! ## JavaScript runtime model -/

/-- JavaScript truthiness of a `string | undefined` value: `undefined` and
the empty string are falsy, every other string is truthy. -/
def jsTruthy : Option String → Bool
  | none => false
  | some s => s != ""

/-- JavaScript string conversion of a `string | undefined` value, as
performed by template interpolation and by the `URL` constructor:
`undefined` becomes the literal text `undefined`. -/
def jsInterp : Option String → String
  | none => "undefined"
  | some s => s

/-- Model of `String.prototype.split` with a one-character separator, on character
lists: `"".split(sep)` is `[""]`, separators at the ends produce empty
segments. -/
def jsSplitChars (sep : Char) : List Char → List (List Char)
  | [] => [[]]
  | c :: rest =>
    match jsSplitChars sep rest with
    | [] => [[]]
    | g :: gs => if c == sep then [] :: g :: gs else (c :: g) :: gs

/-- Model of `String.prototype.split` with a one-character separator. -/
def jsSplit (s : String) (sep : Char) : List String :=
  (jsSplitChars sep s.data).map String.mk

/-! ## Node base64 decoder (`Buffer.from(s, "base64")`)

Node's decoder is forgiving: it accepts both the standard and the URL-safe
alphabet, ignores characters outside the alphabet (including padding), and
decodes a trailing group of two or three sextets into one or two bytes. -/

/-- Sextet value of one base64 alphabet character (`none` for characters
outside the alphabet, which Node skips). -/
def base64CharVal (c : Char) : Option Nat :=
  if 65 ≤ c.toNat ∧ c.toNat ≤ 90 then some (c.toNat - 65)
  else if 97 ≤ c.toNat ∧ c.toNat ≤ 122 then some (c.toNat - 97 + 26)
  else if 48 ≤ c.toNat ∧ c.toNat ≤ 57 then some (c.toNat - 48 + 52)
  else if c == '+' ∨ c == '-' then some 62
  else if c == '/' ∨ c == '_' then some 63
  else none

/-- Reassemble a list of sextets into bytes, four sextets to three bytes,
with Node's handling of a short trailing group. -/
def base64Groups : List Nat → List Nat
  | a :: b :: c :: d :: rest =>
    (a * 4 + b / 16) :: ((b % 16) * 16 + c / 4) :: ((c % 4) * 64 + d) :: base64Groups rest
  | [a, b] => [a * 4 + b / 16]
  | [a, b, c] => [a * 4 + b / 16, (b % 16) * 16 + c / 4]
  | _ => []

/-- Model of `Buffer.from(s, "base64")`: the decoded byte list. -/
def base64Decode (s : String) : List Nat :=
  base64Groups (s.data.filterMap base64CharVal)

/-! ## UTF-8 decoding (`buffer.toString("utf8")`)

Invalid sequences decode to U+FFFD, as in Node. -/

/-- Is a byte a UTF-8 continuation byte (`10xxxxxx`)? -/
def utf8Cont (b : Nat) : Bool := 128 ≤ b ∧ b ≤ 191

/-- The replacement character U+FFFD. -/
def replChar : Char := Char.ofNat 0xFFFD

/-- Decode one code point: the first byte has already been taken from the
stream; returns the decoded character and the remaining bytes.  At least the
first byte is always consumed. -/
def utf8Step (b1 : Nat) (rest : List Nat) : Char × List Nat :=
  if b1 < 128 then (Char.ofNat b1, rest)
  else if 194 ≤ b1 ∧ b1 ≤ 223 then
    match rest with
    | b2 :: r2 =>
      if utf8Cont b2 then (Char.ofNat ((b1 % 32) * 64 + b2 % 64), r2)
      else (replChar, rest)
    | [] => (replChar, [])
  else if 224 ≤ b1 ∧ b1 ≤ 239 then
    match rest with
    | b2 :: b3 :: r3 =>
      if utf8Cont b2 ∧ utf8Cont b3
          ∧ (b1 ≠ 224 ∨ 160 ≤ b2) ∧ (b1 ≠ 237 ∨ b2 < 160) then
        (Char.ofNat ((b1 % 16) * 4096 + (b2 % 64) * 64 + b3 % 64), r3)
      else (replChar, rest)
    | _ => (replChar, rest)
  else if 240 ≤ b1 ∧ b1 ≤ 244 then
    match rest with
    | b2 :: b3 :: b4 :: r4 =>
      if utf8Cont b2 ∧ utf8Cont b3 ∧ utf8Cont b4
          ∧ (b1 ≠ 240 ∨ 144 ≤ b2) ∧ (b1 ≠ 244 ∨ b2 < 144) then
        (Char.ofNat ((b1 % 8) * 262144 + (b2 % 64) * 4096 + (b3 % 64) * 64 + b4 % 64), r4)
      else (replChar, rest)
    | _ => (replChar, rest)
  else (replChar, rest)

/-- Fuelled decoding loop; the fuel is the byte count, which suffices since
every step consumes at least one byte. -/
def utf8Drive : Nat → List Nat → List Char
  | 0, _ => []
  | _, [] => []
  | fuel + 1, b :: bs =>
    let step := utf8Step b bs
    step.fst :: utf8Drive fuel step.snd

/-- Model of `buffer.toString("utf8")`. -/
def utf8Decode (bs : List Nat) : String :=
  String.mk (utf8Drive bs.length bs)

/-! ## WHATWG URL hostname extraction (`new URL(s).hostname`)

Modelled for hierarchical (`scheme://…`) URLs, which is the form the issuer
is used with: authority runs to the first `/`, `?` or `#`; userinfo up to
the last `@` is dropped; a `:port` suffix is dropped (except inside an IPv6
bracket literal); ASCII letters of the host are lowercased.  Inputs without
a `://` (such as the text `undefined` that `new URL(undefined)` stringifies
to) make the constructor throw, modelled by `none`, as does an empty host. -/

/-- Lowercase one ASCII character. -/
def asciiLower (c : Char) : Char :=
  if 65 ≤ c.toNat ∧ c.toNat ≤ 90 then Char.ofNat (c.toNat + 32) else c

/-- The authority of a hierarchical URL: everything after `://` up to the
first `/`, `?` or `#`. -/
def urlAuthority (afterSlashes : List Char) : List Char :=
  afterSlashes.takeWhile (fun c => !(c == '/' || c == '?' || c == '#'))

/-- Strip the userinfo (everything up to the last `@`) from an authority. -/
def urlHostPort (authority : List Char) : List Char :=
  (authority.reverse.takeWhile (fun c => c != '@')).reverse

/-- Strip the `:port` suffix from a host-port (an IPv6 bracket literal keeps
its brackets). -/
def urlDropPort (hostPort : List Char) : List Char :=
  if hostPort.head? == some '[' then hostPort.takeWhile (fun c => c != ']') ++ [']']
  else hostPort.takeWhile (fun c => c != ':')

/-- Model of `new URL(s).hostname`, or `none` when the constructor throws: the input
must have a non-empty scheme followed by `://`, and a non-empty host. -/
def urlHostname (s : String) : Option String :=
  let afterScheme := s.data.dropWhile (fun c => c != ':')
  if (s.data.takeWhile (fun c => c != ':')).isEmpty then none
  else if afterScheme.take 3 = [':', '/', '/'] then
    let hostname := urlDropPort (urlHostPort (urlAuthority (afterScheme.drop 3)))
    if hostname.isEmpty then none
    else some (String.mk (hostname.map asciiLower))
  else none

/-! ## Source data model (`content-cloud-authentication`, unnamed variant) -/

/-- The `ContentCloudPermission` string enum. -/
inductive ContentCloudPermission where
  | CONTENT_READ
  | CONTENT_TYPE_READ
  | ASSET_READ_FILE
  | USER_DATA_READ
  | USER_DATA_WRITE
  | EXTERNAL_LINK_READ
  | EXTERNAL_LINK_WRITE
  | PREVIEW
  | DEVELOPER
  | SPACE_READ
deriving DecidableEq

/-- The string value of each `ContentCloudPermission` member. -/
def ContentCloudPermission.value : ContentCloudPermission → String
  | .CONTENT_READ => "permission:content:read"
  | .CONTENT_TYPE_READ => "permission:content-type:read"
  | .ASSET_READ_FILE => "permission:asset:read:file"
  | .USER_DATA_READ => "permission:user-data:read"
  | .USER_DATA_WRITE => "permission:user-data:write"
  | .EXTERNAL_LINK_READ => "permission:external-link:read"
  | .EXTERNAL_LINK_WRITE => "permission:external-link:write"
  | .PREVIEW => "permission:preview"
  | .DEVELOPER => "permission:developer"
  | .SPACE_READ => "permission:space:read"

/-- The `ContentCloudService` string enum. -/
inductive ContentCloudService where
  | LIVE
  | CDN
  | ASSETS
  | DEV
  | PREVIEW
  | ASSET_PREVIEWS
  | PUBLISHER
deriving DecidableEq

/-- The string value of each `ContentCloudService` member. -/
def ContentCloudService.value : ContentCloudService → String
  | .LIVE => "service:live"
  | .CDN => "service:cdn"
  | .ASSETS => "service:assets"
  | .DEV => "service:dev"
  | .PREVIEW => "service:preview"
  | .ASSET_PREVIEWS => "service:asset-previews"
  | .PUBLISHER => "service:publisher"

/-- The process-wide configuration (`process.env`) variables the issuer
reads; each is a `string | undefined`. -/
structure EnvConfig where
  CC_CLIENT_SECRET : Option String
  CC_SPACE_ID : Option String
  CC_ENVIRONMENT_ID : Option String
  CC_SATELLITE_BASE_URL : Option String
  CC_BASE_URL : Option String
deriving DecidableEq

/-- The `ContentCloudJwtPayload` interface.  Every field the function guards
against being absent at runtime is modelled as optional. -/
structure ContentCloudJwtPayload where
  baseUrl : Option String
  services : Option (List ContentCloudService)
  permissions : Option (List ContentCloudPermission)
  spaceId : Option String
  environmentIds : Option (List String)
  userId : Option String
  userDataContentTypes : Option (List String)
deriving DecidableEq

/-- The exceptions `generateAccessToken` can throw:
`missingSecret` is `Error("Missing clientSecret to sign access token.")`,
`malformedSecret` is `Error("client secret uses an unsupported format.")`,
and `invalidUrl` is the `TypeError` thrown by the `URL` constructor. -/
inductive GenerateTokenError where
  | missingSecret
  | malformedSecret
  | invalidUrl
deriving DecidableEq

/-- The protected header handed to the signer: `algorithm` and `keyid` from
the `jsonwebtoken.sign` options. -/
structure JwtHeader where
  alg : String
  kid : String
deriving DecidableEq

/-- The key material handed to the signer: a UTF-8 string (PEM text) or the
raw decoded bytes. -/
inductive JwtKeyMaterial where
  | utf8Text (pem : String)
  | rawBytes (bytes : List Nat)
deriving DecidableEq

/-- The signer invocation that `generateAccessToken` produces: the claim
set, the protected header, and the key material.  `iat` is the signing
instant, `exp` is `iat` plus the `expiresIn` option. -/
structure SignedJwt where
  header : JwtHeader
  aud : String
  iss : String
  scope : List String
  sub : Option String
  iat : Nat
  exp : Nat
  key : JwtKeyMaterial
deriving DecidableEq

deriving instance DecidableEq for Except

/-! ## The issuer -/

/-- Lines 70–72 of the source: an untruthy `clientSecret` parameter is
replaced by the `CC_CLIENT_SECRET` configuration value. -/
def resolveClientSecret (clientSecret : Option String) (env : EnvConfig) : Option String :=
  if jsTruthy clientSecret then clientSecret else env.CC_CLIENT_SECRET

/-- Line 82 of the source: `payload.baseUrl ?? CC_SATELLITE_BASE_URL ??
CC_BASE_URL` (nullish coalescing, so an empty string is kept). -/
def resolveBaseUrl (payload : ContentCloudJwtPayload) (env : EnvConfig) : Option String :=
  payload.baseUrl <|> env.CC_SATELLITE_BASE_URL <|> env.CC_BASE_URL

/-- Lines 77–78 of the source: after `clientSecret.split(":")`, is any of
the three destructured segments missing or empty (hence falsy)? -/
def secretPartsMalformed (s : String) : Bool :=
  ((jsSplit s ':')[0]?).getD "" == "" || ((jsSplit s ':')[1]?).getD "" == ""
    || ((jsSplit s ':')[2]?).getD "" == ""

/-- Lines 90–111 of the source: the `scope` array in push order —
permissions, services, the space entry, the environment entries, the
user-data content-type entries. -/
def buildScope (payload : ContentCloudJwtPayload) (env : EnvConfig) : List String :=
  (match payload.permissions with
    | some ps => ps.map ContentCloudPermission.value
    | none => [])
  ++ (match payload.services with
    | some ss => ss.map ContentCloudService.value
    | none => [])
  ++ ["space:" ++ jsInterp (payload.spaceId <|> env.CC_SPACE_ID)]
  ++ (match payload.environmentIds with
    | some ids => ids.map (fun envId => "environment:" ++ envId)
    | none =>
      if jsTruthy env.CC_ENVIRONMENT_ID then
        ["environment:" ++ env.CC_ENVIRONMENT_ID.getD ""]
      else ["environment:*"])
  ++ (match payload.userDataContentTypes with
    | some cts => cts.map (fun ct => "content-user-data:" ++ ct)
    | none => [])

/-- Lines 117–124 of the source: the secret is treated as asymmetric when
its first five decoded bytes are `0x2d` (the ASCII `-` of a PEM header). -/
def isAsymmetric (secretBinary : List Nat) : Bool :=
  secretBinary[0]? == some 45 && secretBinary[1]? == some 45
    && secretBinary[2]? == some 45 && secretBinary[3]? == some 45
    && secretBinary[4]? == some 45

/-- Lines 84–130 of the source, success path: the claim set, header and key
material handed to `jsonwebtoken.sign`, given the resolved secret string and
the hostname extracted from the resolved base URL. -/
def tokenFor (payload : ContentCloudJwtPayload) (env : EnvConfig) (now : Nat)
    (ttlInSeconds : Option Nat) (secretStr hostname : String) : SignedJwt :=
  let parts := jsSplit secretStr ':'
  let clientId := (parts[0]?).getD ""
  let issuerBase64 := (parts[1]?).getD ""
  let secretBase64 := (parts[2]?).getD ""
  let secretBinary := base64Decode secretBase64
  let asymmetric := isAsymmetric secretBinary
  { header := { alg := if asymmetric then "RS256" else "HS256"
                kid := "client:" ++ clientId ++ ":0" }
    aud := "https://" ++ hostname
    iss := utf8Decode (base64Decode issuerBase64)
    scope := buildScope payload env
    sub := if jsTruthy payload.userId then payload.userId else none
    iat := now
    exp := now + ttlInSeconds.getD 3600
    key := if asymmetric then JwtKeyMaterial.utf8Text (utf8Decode secretBinary)
           else JwtKeyMaterial.rawBytes secretBinary }

/-- Model of `generateAccessToken(payload, ttlInSeconds = 3_600, clientSecret?)`,
lines 69–131 of the source.  `env` is the ambient `process.env`, `now` the
signing instant in epoch seconds; `ttlInSeconds = none` models omitting the
parameter, in which case the JavaScript default `3_600` applies. -/
def generateAccessToken (payload : ContentCloudJwtPayload) (env : EnvConfig)
    (now : Nat) (ttlInSeconds : Option Nat) (clientSecret : Option String) :
    Except GenerateTokenError SignedJwt :=
  match resolveClientSecret clientSecret env with
  | none => .error .missingSecret
  | some secretStr =>
    if secretStr = "" then .error .missingSecret
    else if secretPartsMalformed secretStr then .error .malformedSecret
    else
      match urlHostname (jsInterp (resolveBaseUrl payload env)) with
      | none => .error .invalidUrl
      | some hostname => .ok (tokenFor payload env now ttlInSeconds secretStr hostname)

/-! ## Shape predicates for base URLs

These describe the hierarchical-URL inputs over which hostname extraction is
analysed: a lowercase ASCII host followed by an optional `:port` and an
optional path, query or fragment. -/

/-- A plain registrable-host character: lowercase ASCII letter, digit, dot
or hyphen. -/
def isHostChar (c : Char) : Bool :=
  (97 ≤ c.toNat && c.toNat ≤ 122) || (48 ≤ c.toNat && c.toNat ≤ 57)
    || c == '.' || c == '-'

/-- An ASCII digit. -/
def isDigitChar (c : Char) : Bool := 48 ≤ c.toNat && c.toNat ≤ 57

/-- Does the list start with a path, query or fragment delimiter (or end)? -/
def startsPathDelim : List Char → Bool
  | [] => true
  | c :: _ => c == '/' || c == '?' || c == '#'

/-- What may legally follow the host in a hierarchical URL: nothing, or a
`:port` of digits, or a path/query/fragment; the port may itself be followed
by a path/query/fragment. -/
def validAfterHost (cs : List Char) : Bool :=
  match cs with
  | [] => true
  | c :: r =>
    if c == ':' then startsPathDelim (r.dropWhile isDigitChar)
    else c == '/' || c == '?' || c == '#'

/-- Sample empty configuration: no process-wide fallbacks set. -/
def emptyEnv : EnvConfig :=
  { CC_CLIENT_SECRET := none, CC_SPACE_ID := none, CC_ENVIRONMENT_ID := none,
    CC_SATELLITE_BASE_URL := none, CC_BASE_URL := none }

/-- Sample scope request used to instantiate the theorems on concrete
inputs. -/
def samplePayload : ContentCloudJwtPayload :=
  { baseUrl := some "https://cdn.example.com/v1?x=1", services := some [.CDN],
    permissions := some [.CONTENT_READ], spaceId := some "sp1",
    environmentIds := some ["env1", "env2"], userId := none,
    userDataContentTypes := none }

/-! ## Characterisation of the issuer's outcomes -/

theorem tokenFor_header (payload : ContentCloudJwtPayload) (env : EnvConfig)
    (now : Nat) (ttl : Option Nat) (s h : String) :
    (tokenFor payload env now ttl s h).header
      = { alg := if isAsymmetric (base64Decode (((jsSplit s ':')[2]?).getD "")) then "RS256" else "HS256"
          kid := "client:" ++ ((jsSplit s ':')[0]?).getD "" ++ ":0" } := rfl

theorem tokenFor_aud (payload : ContentCloudJwtPayload) (env : EnvConfig)
    (now : Nat) (ttl : Option Nat) (s h : String) :
    (tokenFor payload env now ttl s h).aud = "https://" ++ h := rfl

theorem tokenFor_scope (payload : ContentCloudJwtPayload) (env : EnvConfig)
    (now : Nat) (ttl : Option Nat) (s h : String) :
    (tokenFor payload env now ttl s h).scope = buildScope payload env := rfl

theorem tokenFor_sub (payload : ContentCloudJwtPayload) (env : EnvConfig)
    (now : Nat) (ttl : Option Nat) (s h : String) :
    (tokenFor payload env now ttl s h).sub
      = if jsTruthy payload.userId then payload.userId else none := rfl

theorem tokenFor_iat (payload : ContentCloudJwtPayload) (env : EnvConfig)
    (now : Nat) (ttl : Option Nat) (s h : String) :
    (tokenFor payload env now ttl s h).iat = now := rfl

theorem tokenFor_exp (payload : ContentCloudJwtPayload) (env : EnvConfig)
    (now : Nat) (ttl : Option Nat) (s h : String) :
    (tokenFor payload env now ttl s h).exp = now + ttl.getD 3600 := rfl

theorem tokenFor_key (payload : ContentCloudJwtPayload) (env : EnvConfig)
    (now : Nat) (ttl : Option Nat) (s h : String) :
    (tokenFor payload env now ttl s h).key
      = (if isAsymmetric (base64Decode (((jsSplit s ':')[2]?).getD "")) then
          JwtKeyMaterial.utf8Text (utf8Decode (base64Decode (((jsSplit s ':')[2]?).getD "")))
        else JwtKeyMaterial.rawBytes (base64Decode (((jsSplit s ':')[2]?).getD ""))) := rfl

/-- The issuer succeeds exactly when a truthy secret resolves, its first
three colon segments are non-empty, and the resolved base URL yields a
hostname; the result is then `tokenFor`. -/
theorem generateAccessToken_ok_iff (payload : ContentCloudJwtPayload) (env : EnvConfig)
    (now : Nat) (ttl : Option Nat) (cs : Option String) (tok : SignedJwt) :
    generateAccessToken payload env now ttl cs = .ok tok ↔
      ∃ s hostname, resolveClientSecret cs env = some s ∧ s ≠ "" ∧
        secretPartsMalformed s = false ∧
        urlHostname (jsInterp (resolveBaseUrl payload env)) = some hostname ∧
        tok = tokenFor payload env now ttl s hostname := by
  unfold generateAccessToken
  cases hr : resolveClientSecret cs env with
  | none => simp
  | some s =>
    by_cases hs : s = ""
    · subst hs; simp
    · dsimp only
      rw [if_neg hs]
      by_cases hm : secretPartsMalformed s
      · rw [if_pos hm]
        simp [hm, hs]
      · rw [if_neg hm]
        cases hu : urlHostname (jsInterp (resolveBaseUrl payload env)) with
        | none => simp [hs, Bool.of_not_eq_true hm]
        | some hostname =>
          simp only [Except.ok.injEq]
          constructor
          · intro h
            exact ⟨s, hostname, rfl, hs, Bool.of_not_eq_true hm, rfl, h.symm⟩
          · rintro ⟨s', h', hss, -, -, hh, htok⟩
            cases hss
            cases hh
            exact htok.symm

/-- The missing-secret error is raised exactly when the resolved secret is
absent or empty (JavaScript-falsy). -/
theorem generateAccessToken_missingSecret_iff (payload : ContentCloudJwtPayload)
    (env : EnvConfig) (now : Nat) (ttl : Option Nat) (cs : Option String) :
    generateAccessToken payload env now ttl cs = .error .missingSecret ↔
      resolveClientSecret cs env = none ∨ resolveClientSecret cs env = some "" := by
  unfold generateAccessToken
  cases hr : resolveClientSecret cs env with
  | none => simp
  | some s =>
    by_cases hs : s = ""
    · subst hs; simp
    · dsimp only
      rw [if_neg hs]
      by_cases hm : secretPartsMalformed s
      · rw [if_pos hm]; simp [hs]
      · rw [if_neg hm]
        cases hu : urlHostname (jsInterp (resolveBaseUrl payload env)) with
        | none => simp [hs]
        | some hostname => simp [hs]

/-- The malformed-secret error is raised exactly when a truthy secret
resolves but one of its first three colon segments is missing or empty. -/
theorem generateAccessToken_malformedSecret_iff (payload : ContentCloudJwtPayload)
    (env : EnvConfig) (now : Nat) (ttl : Option Nat) (cs : Option String) :
    generateAccessToken payload env now ttl cs = .error .malformedSecret ↔
      ∃ s, resolveClientSecret cs env = some s ∧ s ≠ "" ∧
        secretPartsMalformed s = true := by
  unfold generateAccessToken
  cases hr : resolveClientSecret cs env with
  | none => simp
  | some s =>
    by_cases hs : s = ""
    · subst hs; simp
    · dsimp only
      rw [if_neg hs]
      by_cases hm : secretPartsMalformed s
      · rw [if_pos hm]; simp [hs, hm]
      · rw [if_neg hm]
        cases hu : urlHostname (jsInterp (resolveBaseUrl payload env)) with
        | none => simp [hs, hm]
        | some hostname => simp [hs, hm]

/-- The URL constructor's error propagates exactly when the secret is fine
but the resolved base URL (or the text `undefined` standing in for an
unresolved one) yields no hostname. -/
theorem generateAccessToken_invalidUrl_iff (payload : ContentCloudJwtPayload)
    (env : EnvConfig) (now : Nat) (ttl : Option Nat) (cs : Option String) :
    generateAccessToken payload env now ttl cs = .error .invalidUrl ↔
      ∃ s, resolveClientSecret cs env = some s ∧ s ≠ "" ∧
        secretPartsMalformed s = false ∧
        urlHostname (jsInterp (resolveBaseUrl payload env)) = none := by
  unfold generateAccessToken
  cases hr : resolveClientSecret cs env with
  | none => simp
  | some s =>
    by_cases hs : s = ""
    · subst hs; simp
    · dsimp only
      rw [if_neg hs]
      by_cases hm : secretPartsMalformed s
      · rw [if_pos hm]; simp [hs, hm]
      · rw [if_neg hm]
        cases hu : urlHostname (jsInterp (resolveBaseUrl payload env)) with
        | none => simp [hs, Bool.of_not_eq_true hm, hu]
        | some hostname => simp [hs, hm, hu]

/-- Sanity check: the worked example of the specification evaluates to the
expected claim set, algorithm and key identifier. -/
theorem generateAccessToken_spec_example :
    generateAccessToken
      { baseUrl := some "https://cdn.example.com/v1?x=1", services := some [.CDN],
        permissions := some [.CONTENT_READ], spaceId := some "sp1",
        environmentIds := some ["env1", "env2"], userId := none,
        userDataContentTypes := none }
      { CC_CLIENT_SECRET := none, CC_SPACE_ID := none, CC_ENVIRONMENT_ID := none,
        CC_SATELLITE_BASE_URL := none, CC_BASE_URL := none }
      100 none (some "abc:aXNz:c2VjcmV0")
    = .ok
      { header := { alg := "HS256", kid := "client:abc:0" }
        aud := "https://cdn.example.com"
        iss := "iss"
        scope := ["permission:content:read", "service:cdn", "space:sp1",
                  "environment:env1", "environment:env2"]
        sub := none
        iat := 100
        exp := 3700
        key := .rawBytes [115, 101, 99, 114, 101, 116] } := by decide

/-! ## Helper lemmas for hostname extraction -/

theorem ne_of_predTrue {p : Char → Bool} {c d : Char} (hc : p c = true)
    (hd : p d = false) : c ≠ d := by
  intro h
  rw [h, hd] at hc
  exact Bool.false_ne_true hc

theorem takeWhile_append_of_all {α : Type} {p : α → Bool} {l1 l2 : List α}
    (h : ∀ c ∈ l1, p c = true) :
    (l1 ++ l2).takeWhile p = l1 ++ l2.takeWhile p := by
  rw [List.takeWhile_append, List.takeWhile_eq_self_iff.mpr h]
  simp

theorem takeWhile_eq_nil_of_head {α : Type} {p : α → Bool} {l : List α} {c : α}
    (hc : l.head? = some c) (hpc : p c = false) : l.takeWhile p = [] := by
  cases l with
  | nil => rfl
  | cons a t =>
    cases hc
    rw [List.takeWhile_cons, hpc]
    simp

theorem reverse_takeWhile_reverse_of_all {α : Type} {p : α → Bool} {l : List α}
    (h : ∀ c ∈ l, p c = true) :
    (l.reverse.takeWhile p).reverse = l := by
  rw [List.takeWhile_eq_self_iff.mpr (fun c hc => h c (List.mem_reverse.mp hc)),
    List.reverse_reverse]

theorem digit_isHostChar {c : Char} (h : isDigitChar c = true) : isHostChar c = true := by
  unfold isDigitChar at h
  unfold isHostChar
  simp only [Bool.and_eq_true, decide_eq_true_eq] at h
  simp only [Bool.or_eq_true, Bool.and_eq_true, decide_eq_true_eq]
  exact Or.inl (Or.inl (Or.inr h))

theorem hostChar_notColon {c : Char} (hc : isHostChar c = true) : (c != ':') = true := by
  simpa using ne_of_predTrue hc (show isHostChar ':' = false by decide)

theorem hostChar_notDelim {c : Char} (hc : isHostChar c = true) :
    (!(c == '/' || c == '?' || c == '#')) = true := by
  have h1 : c ≠ '/' := ne_of_predTrue hc (by decide)
  have h2 : c ≠ '?' := ne_of_predTrue hc (by decide)
  have h3 : c ≠ '#' := ne_of_predTrue hc (by decide)
  simp [h1, h2, h3]

theorem hostChar_notAt {c : Char} (hc : isHostChar c = true) : (c != '@') = true := by
  simpa using ne_of_predTrue hc (show isHostChar '@' = false by decide)

theorem hostChar_asciiLower {c : Char} (hc : isHostChar c = true) : asciiLower c = c := by
  unfold isHostChar at hc
  simp only [Bool.or_eq_true, Bool.and_eq_true, decide_eq_true_eq, beq_iff_eq] at hc
  unfold asciiLower
  rcases hc with ((h | h) | h) | h
  · rw [if_neg (by omega)]
  · rw [if_neg (by omega)]
  · subst h; rfl
  · subst h; rfl

theorem takeWhile_https (tl : List Char) :
    List.takeWhile (fun c => c != ':')
      ('h' :: 't' :: 't' :: 'p' :: 's' :: ':' :: '/' :: '/' :: tl)
      = ['h', 't', 't', 'p', 's'] := by
  simp [List.takeWhile_cons]

theorem dropWhile_https (tl : List Char) :
    List.dropWhile (fun c => c != ':')
      ('h' :: 't' :: 't' :: 'p' :: 's' :: ':' :: '/' :: '/' :: tl)
      = ':' :: '/' :: '/' :: tl := by
  simp [List.dropWhile_cons]

/-- On an authority whose suffix after the host is well shaped, the
authority of `host ++ rest` is the host followed by either nothing or a
colon and the port digits. -/
theorem urlAuthority_structured {hostD restD : List Char}
    (h2 : ∀ c ∈ hostD, isHostChar c = true)
    (h3 : validAfterHost restD = true) :
    ∃ portD, urlAuthority (hostD ++ restD) = hostD ++ portD ∧
      (portD = [] ∨ ∃ d, portD = ':' :: d ∧ ∀ c ∈ d, isDigitChar c = true) := by
  unfold urlAuthority
  rw [takeWhile_append_of_all (fun c hc => hostChar_notDelim (h2 c hc))]
  refine ⟨_, rfl, ?_⟩
  unfold validAfterHost at h3
  cases restD with
  | nil => exact Or.inl rfl
  | cons c r =>
    dsimp only at h3
    by_cases hc : c = ':'
    · subst hc
      right
      rw [if_pos (by rfl)] at h3
      have heq : List.takeWhile (fun c => !(c == '/' || c == '?' || c == '#')) r
          = List.takeWhile isDigitChar r := by
        conv_lhs => rw [← List.takeWhile_append_dropWhile isDigitChar r]
        rw [takeWhile_append_of_all (fun c hc =>
          hostChar_notDelim (digit_isHostChar (List.mem_takeWhile_imp hc)))]
        cases hq : List.dropWhile isDigitChar r with
        | nil => simp
        | cons q qs =>
          rw [hq] at h3
          unfold startsPathDelim at h3
          simp only [Bool.or_eq_true, beq_iff_eq] at h3
          have hnil : List.takeWhile (fun c => !(c == '/' || c == '?' || c == '#'))
              (q :: qs) = [] := by
            rw [List.takeWhile_cons]
            rcases h3 with (h | h) | h <;> subst h <;> simp
          rw [hnil, List.append_nil]
      rw [List.takeWhile_cons]
      simp only [show (!((':' : Char) == '/' || (':' : Char) == '?' || (':' : Char) == '#'))
        = true from rfl, if_true, heq]
      exact ⟨List.takeWhile isDigitChar r, rfl, fun c hc => List.mem_takeWhile_imp hc⟩
    · left
      rw [if_neg (by simpa using hc)] at h3
      simp only [Bool.or_eq_true, beq_iff_eq] at h3
      rw [List.takeWhile_cons]
      rcases h3 with (h | h) | h <;> subst h <;> simp

theorem urlHostPort_of_noAt {l : List Char} (h : ∀ c ∈ l, (c != '@') = true) :
    urlHostPort l = l := by
  unfold urlHostPort
  exact reverse_takeWhile_reverse_of_all h

theorem urlDropPort_structured {hostD portD : List Char}
    (hne : hostD ≠ []) (h2 : ∀ c ∈ hostD, isHostChar c = true)
    (hport : portD = [] ∨ ∃ d, portD = ':' :: d ∧ ∀ c ∈ d, isDigitChar c = true) :
    urlDropPort (hostD ++ portD) = hostD := by
  unfold urlDropPort
  cases hostD with
  | nil => exact absurd rfl hne
  | cons hc ht =>
    have hhc : isHostChar hc = true := h2 hc (List.mem_cons_self hc ht)
    rw [List.cons_append, List.head?_cons]
    rw [show ((some hc == some '[') = false) from
      beq_eq_false_iff_ne.mpr (fun he => ne_of_predTrue hhc (by decide) (Option.some.inj he))]
    simp only [Bool.false_eq_true, if_false]
    rw [← List.cons_append,
      takeWhile_append_of_all (fun c hcm => hostChar_notColon (h2 c hcm))]
    rcases hport with h | ⟨d, hd, _⟩
    · subst h
      simp
    · subst hd
      rw [takeWhile_eq_nil_of_head (List.head?_cons) (by rfl), List.append_nil]

/-- On a hierarchical `https://` URL whose host consists of plain host
characters and whose suffix is a well-shaped optional port and
path/query/fragment, hostname extraction returns exactly the host. -/
theorem urlHostname_structured {host rest : String} (h1 : host ≠ "")
    (h2 : ∀ c ∈ host.data, isHostChar c = true)
    (h3 : validAfterHost rest.data = true) :
    urlHostname ("https://" ++ host ++ rest) = some host := by
  obtain ⟨portD, hauth, hport⟩ := urlAuthority_structured h2 h3
  have hnoAt : ∀ c ∈ host.data ++ portD, (c != '@') = true := by
    intro c hcmem
    rcases List.mem_append.mp hcmem with hmem | hmem
    · exact hostChar_notAt (h2 c hmem)
    · rcases hport with h | ⟨d, hd, hdig⟩
      · subst h
        simp at hmem
      · subst hd
        rcases List.mem_cons.mp hmem with h | h
        · subst h
          rfl
        · exact hostChar_notAt (digit_isHostChar (hdig c h))
  have hdne : host.data ≠ [] := fun hnil => h1 (String.ext hnil)
  have hdp : urlDropPort (urlHostPort (urlAuthority (host.data ++ rest.data)))
      = host.data := by
    rw [hauth, urlHostPort_of_noAt hnoAt]
    exact urlDropPort_structured hdne h2 hport
  have hdata : ("https://" ++ host ++ rest).data
      = 'h' :: 't' :: 't' :: 'p' :: 's' :: ':' :: '/' :: '/' :: (host.data ++ rest.data) := rfl
  simp only [urlHostname]
  rw [hdata, takeWhile_https, dropWhile_https]
  rw [if_neg (by decide)]
  have htake : (':' :: '/' :: '/' :: (host.data ++ rest.data)).take 3 = [':', '/', '/'] := rfl
  rw [if_pos htake]
  have hdrop : (':' :: '/' :: '/' :: (host.data ++ rest.data)).drop 3
      = host.data ++ rest.data := rfl
  rw [hdrop, hdp]
  rw [if_neg (fun hemp => hdne (List.isEmpty_iff.mp hemp))]
  have hmap : host.data.map asciiLower = host.data := by
    rw [List.map_congr_left (fun a ha => (hostChar_asciiLower (h2 a ha)).trans rfl)]
    exact List.map_id host.data
  rw [hmap]

/-! ## Small supporting lemmas -/

theorem isAsymmetric_iff (bs : List Nat) :
    isAsymmetric bs = true ↔
      (bs[0]? = some 45 ∧ bs[1]? = some 45 ∧ bs[2]? = some 45 ∧
        bs[3]? = some 45 ∧ bs[4]? = some 45) := by
  unfold isAsymmetric
  simp [Bool.and_eq_true, beq_iff_eq, and_assoc]

theorem jsSplitChars_ne_nil (sep : Char) (l : List Char) : jsSplitChars sep l ≠ [] := by
  cases l with
  | nil => simp [jsSplitChars]
  | cons c r =>
    unfold jsSplitChars
    cases jsSplitChars sep r with
    | nil => simp
    | cons g gs =>
      dsimp only
      split <;> simp

theorem jsSplit_ne_nil (s : String) (sep : Char) : jsSplit s sep ≠ [] := by
  unfold jsSplit
  intro h
  exact jsSplitChars_ne_nil sep s.data (List.map_eq_nil_iff.mp h)

theorem string_append_ne_of_head {pre s tgt : String} {c d : Char}
    (h1 : pre.data.head? = some c) (h2 : tgt.data.head? = some d) (h3 : c ≠ d) :
    pre ++ s ≠ tgt := by
  intro he
  have hd := congrArg String.data he
  rw [String.data_append] at hd
  have hh := congrArg List.head? hd
  rw [List.head?_append, h1, h2] at hh
  exact h3 (Option.some.inj (by simpa using hh))

theorem permission_value_ne_space_undefined (pm : ContentCloudPermission) :
    pm.value ≠ "space:undefined" := by
  cases pm <;> decide

theorem service_value_ne_space_undefined (sv : ContentCloudService) :
    sv.value ≠ "space:undefined" := by
  cases sv <;> decide

/-! ## The claims -/

/-- Claim C1: for every valid invocation of `generateAccessToken`, the
signing algorithm is chosen solely by inspecting the first five decoded
bytes of the secret material: if those bytes are the ASCII bytes `-----`
(0x2d five times), the token header declares RS256 and the decoded secret is
passed to the signer as UTF-8 text; otherwise the header declares HS256 and
the raw decoded bytes are used as the HMAC key. -/
theorem generateAccessToken_algorithm_by_pem_sniff
    (payload : ContentCloudJwtPayload) (env : EnvConfig) (now : Nat)
    (ttl : Option Nat) (cs : Option String) (tok : SignedJwt)
    (h : generateAccessToken payload env now ttl cs = .ok tok) :
    ∃ s bytes, resolveClientSecret cs env = some s ∧
      bytes = base64Decode (((jsSplit s ':')[2]?).getD "") ∧
      ((bytes[0]? = some 45 ∧ bytes[1]? = some 45 ∧ bytes[2]? = some 45 ∧
          bytes[3]? = some 45 ∧ bytes[4]? = some 45) →
        tok.header.alg = "RS256" ∧
          tok.key = JwtKeyMaterial.utf8Text (utf8Decode bytes)) ∧
      (¬(bytes[0]? = some 45 ∧ bytes[1]? = some 45 ∧ bytes[2]? = some 45 ∧
          bytes[3]? = some 45 ∧ bytes[4]? = some 45) →
        tok.header.alg = "HS256" ∧ tok.key = JwtKeyMaterial.rawBytes bytes) := by
  obtain ⟨s, hostname, hs, hne, hm, hu, htok⟩ :=
    (generateAccessToken_ok_iff payload env now ttl cs tok).mp h
  subst htok
  refine ⟨s, base64Decode (((jsSplit s ':')[2]?).getD ""), hs, rfl, ?_, ?_⟩
  · intro hcond
    have hA : isAsymmetric (base64Decode (((jsSplit s ':')[2]?).getD "")) = true :=
      (isAsymmetric_iff _).mpr hcond
    constructor
    · rw [tokenFor_header]
      simp [hA]
    · rw [tokenFor_key]
      simp [hA]
  · intro hcond
    have hA : isAsymmetric (base64Decode (((jsSplit s ':')[2]?).getD "")) = false := by
      rcases Bool.eq_false_or_eq_true (isAsymmetric (base64Decode (((jsSplit s ':')[2]?).getD ""))) with h0 | h0
      · exact absurd ((isAsymmetric_iff _).mp h0) hcond
      · exact h0
    constructor
    · rw [tokenFor_header]
      simp [hA]
    · rw [tokenFor_key]
      simp [hA]

/-- Witness for C1: the PEM-looking secret `-----BEGIN` (base64
`LS0tLS1CRUdJTg==`) selects RS256 with UTF-8 text key material. -/
theorem generateAccessToken_algorithm_by_pem_sniff_witness :
    ∃ s bytes, resolveClientSecret (some "abc:aXNz:LS0tLS1CRUdJTg==") emptyEnv = some s ∧
      bytes = base64Decode (((jsSplit s ':')[2]?).getD "") ∧
      ((bytes[0]? = some 45 ∧ bytes[1]? = some 45 ∧ bytes[2]? = some 45 ∧
          bytes[3]? = some 45 ∧ bytes[4]? = some 45) →
        (tokenFor samplePayload emptyEnv 0 none "abc:aXNz:LS0tLS1CRUdJTg==" "cdn.example.com").header.alg = "RS256" ∧
          (tokenFor samplePayload emptyEnv 0 none "abc:aXNz:LS0tLS1CRUdJTg==" "cdn.example.com").key
            = JwtKeyMaterial.utf8Text (utf8Decode bytes)) ∧
      (¬(bytes[0]? = some 45 ∧ bytes[1]? = some 45 ∧ bytes[2]? = some 45 ∧
          bytes[3]? = some 45 ∧ bytes[4]? = some 45) →
        (tokenFor samplePayload emptyEnv 0 none "abc:aXNz:LS0tLS1CRUdJTg==" "cdn.example.com").header.alg = "HS256" ∧
          (tokenFor samplePayload emptyEnv 0 none "abc:aXNz:LS0tLS1CRUdJTg==" "cdn.example.com").key
            = JwtKeyMaterial.rawBytes bytes) :=
  generateAccessToken_algorithm_by_pem_sniff samplePayload emptyEnv 0 none
    (some "abc:aXNz:LS0tLS1CRUdJTg==")
    (tokenFor samplePayload emptyEnv 0 none "abc:aXNz:LS0tLS1CRUdJTg==" "cdn.example.com")
    (by decide)

/-- Claim C2: for every valid invocation, the `scope` claim is exactly the
concatenation, in this order, of every supplied permission token (in input
order), every supplied service token (in input order), exactly one
`space:<spaceId>` entry, one `environment:<id>` entry per resolved
environment id (or exactly one `environment:*` entry when neither the
request nor the configuration resolves any), and one
`content-user-data:<contentType>` entry per requested user-data content
type; entries are never deduplicated or reordered. -/
theorem generateAccessToken_scope_order
    (payload : ContentCloudJwtPayload) (env : EnvConfig) (now : Nat)
    (ttl : Option Nat) (cs : Option String) (tok : SignedJwt)
    (h : generateAccessToken payload env now ttl cs = .ok tok) :
    tok.scope =
      (payload.permissions.getD []).map ContentCloudPermission.value
      ++ (payload.services.getD []).map ContentCloudService.value
      ++ ["space:" ++ jsInterp (payload.spaceId <|> env.CC_SPACE_ID)]
      ++ (match payload.environmentIds with
          | some ids => ids.map (fun envId => "environment:" ++ envId)
          | none =>
            if jsTruthy env.CC_ENVIRONMENT_ID then
              ["environment:" ++ env.CC_ENVIRONMENT_ID.getD ""]
            else ["environment:*"])
      ++ (payload.userDataContentTypes.getD []).map
          (fun ct => "content-user-data:" ++ ct) := by
  obtain ⟨s, hostname, hs, hne, hm, hu, htok⟩ :=
    (generateAccessToken_ok_iff payload env now ttl cs tok).mp h
  subst htok
  rw [tokenFor_scope]
  unfold buildScope
  obtain ⟨b, sv, pm, sp, eids, uid, ud⟩ := payload
  cases pm <;> cases sv <;> cases ud <;> rfl

/-- Witness for C2: the spec's worked example, duplicated permission kept. -/
theorem generateAccessToken_scope_order_witness :
    (tokenFor
      { samplePayload with permissions := some [.CONTENT_READ, .CONTENT_READ] }
      emptyEnv 0 none "abc:aXNz:c2VjcmV0" "cdn.example.com").scope
      = ["permission:content:read", "permission:content:read", "service:cdn",
         "space:sp1", "environment:env1", "environment:env2"] := by
  have h := generateAccessToken_scope_order
    { samplePayload with permissions := some [.CONTENT_READ, .CONTENT_READ] }
    emptyEnv 0 none (some "abc:aXNz:c2VjcmV0")
    (tokenFor { samplePayload with permissions := some [.CONTENT_READ, .CONTENT_READ] }
      emptyEnv 0 none "abc:aXNz:c2VjcmV0" "cdn.example.com")
    (by decide)
  exact h.trans (by decide)

/-- Counterexample to C3 as stated: a resolved secret with four
colon-delimited segments does not raise the malformed-secret error — the
call succeeds, silently ignoring the extra segment. -/
theorem generateAccessToken_malformed_secret_cex :
    (jsSplit "abc:aXNz:c2VjcmV0:extra" ':').length = 4 ∧
      (generateAccessToken samplePayload emptyEnv 0 none
        (some "abc:aXNz:c2VjcmV0:extra")).isOk = true := by
  constructor
  · decide
  · decide

/-- Claim C3 as amended: with a truthy resolved secret, the
malformed-secret error is raised exactly when one of the first three
colon-delimited segments of the secret is missing or empty; segments beyond
the third are ignored (the third is used as the secret material). -/
theorem generateAccessToken_malformed_secret_amended
    (payload : ContentCloudJwtPayload) (env : EnvConfig) (now : Nat)
    (ttl : Option Nat) (cs : Option String) (s : String)
    (hs : resolveClientSecret cs env = some s) (hne : s ≠ "") :
    generateAccessToken payload env now ttl cs = .error .malformedSecret ↔
      (((jsSplit s ':')[0]?).getD "" = "" ∨ ((jsSplit s ':')[1]?).getD "" = "" ∨
        ((jsSplit s ':')[2]?).getD "" = "") := by
  rw [generateAccessToken_malformedSecret_iff]
  constructor
  · rintro ⟨s', hs', hne', hm⟩
    rw [hs] at hs'
    cases Option.some.inj hs'
    unfold secretPartsMalformed at hm
    simpa [or_assoc] using hm
  · intro hcond
    refine ⟨s, hs, hne, ?_⟩
    unfold secretPartsMalformed
    simpa [or_assoc] using hcond

/-- Witness for the amended C3: an empty middle segment raises the
malformed-secret error. -/
theorem generateAccessToken_malformed_secret_amended_witness :
    generateAccessToken samplePayload emptyEnv 0 none (some "abc::c2VjcmV0")
      = .error .malformedSecret :=
  (generateAccessToken_malformed_secret_amended samplePayload emptyEnv 0 none
    (some "abc::c2VjcmV0") "abc::c2VjcmV0" (by decide) (by decide)).mpr (by decide)

/-- Claim C4: with no explicit `clientSecret` argument and no process-wide
fallback secret configured, `generateAccessToken` raises the missing-secret
error; this holds for every payload, ttl and signing instant — in
particular no scope construction, decoding, base-URL processing or signing
outcome can influence or precede it. -/
theorem generateAccessToken_missing_secret
    (payload : ContentCloudJwtPayload) (env : EnvConfig) (now : Nat)
    (ttl : Option Nat) (hcs : env.CC_CLIENT_SECRET = none) :
    generateAccessToken payload env now ttl none = .error .missingSecret := by
  rw [generateAccessToken_missingSecret_iff]
  left
  unfold resolveClientSecret
  simp [jsTruthy, hcs]

/-- Witness for C4: a payload whose base URL would not even parse still
fails with the missing-secret error first. -/
theorem generateAccessToken_missing_secret_witness :
    generateAccessToken { samplePayload with baseUrl := some "not a url" }
      emptyEnv 0 none none = .error .missingSecret :=
  generateAccessToken_missing_secret { samplePayload with baseUrl := some "not a url" }
    emptyEnv 0 none rfl

/-- Claim C5: for every valid invocation, the `aud` claim equals `https://`
followed by the hostname component of the resolved base URL (explicit scope
field, else satellite fallback, else generic fallback), independent of any
path, port or query components present in the base URL. -/
theorem generateAccessToken_aud_hostname
    (payload : ContentCloudJwtPayload) (env : EnvConfig) (now : Nat)
    (ttl : Option Nat) (cs : Option String) (tok : SignedJwt)
    (host rest : String)
    (hres : resolveBaseUrl payload env = some ("https://" ++ host ++ rest))
    (hne : host ≠ "") (hchars : ∀ c ∈ host.data, isHostChar c = true)
    (hrest : validAfterHost rest.data = true)
    (h : generateAccessToken payload env now ttl cs = .ok tok) :
    tok.aud = "https://" ++ host := by
  obtain ⟨s, hostname, hs, hsne, hm, hu, htok⟩ :=
    (generateAccessToken_ok_iff payload env now ttl cs tok).mp h
  rw [hres] at hu
  rw [show jsInterp (some ("https://" ++ host ++ rest)) = "https://" ++ host ++ rest
    from rfl] at hu
  rw [urlHostname_structured hne hchars hrest] at hu
  have hh := Option.some.inj hu
  subst hh
  rw [htok, tokenFor_aud]

/-- Witness for C5: a base URL with subdomain, port, path and query yields
an audience of scheme plus bare hostname. -/
theorem generateAccessToken_aud_hostname_witness :
    (tokenFor { samplePayload with baseUrl := some "https://api.sub.example.com:8443/v2/content?q=1" }
      emptyEnv 0 none "abc:aXNz:c2VjcmV0" "api.sub.example.com").aud
      = "https://" ++ "api.sub.example.com" :=
  generateAccessToken_aud_hostname
    { samplePayload with baseUrl := some "https://api.sub.example.com:8443/v2/content?q=1" }
    emptyEnv 0 none (some "abc:aXNz:c2VjcmV0")
    (tokenFor { samplePayload with baseUrl := some "https://api.sub.example.com:8443/v2/content?q=1" }
      emptyEnv 0 none "abc:aXNz:c2VjcmV0" "api.sub.example.com")
    "api.sub.example.com" ":8443/v2/content?q=1"
    (by decide) (by decide) (by decide) (by decide) (by decide)

/-- Counterexample to C6 as stated: with no base URL resolvable anywhere
and an otherwise valid secret, the function does not raise a distinct
missing-base-URL configuration error — the `URL` constructor's parse
failure on the stringified `undefined` propagates instead (the source has
no such distinct error at all). -/
theorem generateAccessToken_missing_base_url_cex :
    generateAccessToken { samplePayload with baseUrl := none } emptyEnv 0 none
      (some "abc:aXNz:c2VjcmV0") = .error .invalidUrl := by decide

/-- Claim C6 as amended: when no base URL is resolvable from the scope
request or any configuration fallback, hostname extraction is attempted on
the stringified `undefined` and the resulting URL-parse failure is what the
caller observes; no distinct configuration error is raised. -/
theorem generateAccessToken_missing_base_url_amended
    (payload : ContentCloudJwtPayload) (env : EnvConfig) (now : Nat)
    (ttl : Option Nat) (cs : Option String) (s : String)
    (hs : resolveClientSecret cs env = some s) (hne : s ≠ "")
    (hm : secretPartsMalformed s = false)
    (hb : resolveBaseUrl payload env = none) :
    generateAccessToken payload env now ttl cs = .error .invalidUrl := by
  rw [generateAccessToken_invalidUrl_iff]
  refine ⟨s, hs, hne, hm, ?_⟩
  rw [hb]
  rfl

/-- Witness for the amended C6. -/
theorem generateAccessToken_missing_base_url_amended_witness :
    generateAccessToken { samplePayload with baseUrl := none } emptyEnv 7 (some 60)
      (some "xyz:aXNz:c2VjcmV0") = .error .invalidUrl :=
  generateAccessToken_missing_base_url_amended
    { samplePayload with baseUrl := none } emptyEnv 7 (some 60)
    (some "xyz:aXNz:c2VjcmV0") "xyz:aXNz:c2VjcmV0"
    (by decide) (by decide) (by decide) (by decide)

/-- Claim C7: for every valid invocation, `exp - iat` equals the supplied
time-to-live exactly; an omitted `ttlInSeconds` defaults to 3600. -/
theorem generateAccessToken_exp_iat_ttl
    (payload : ContentCloudJwtPayload) (env : EnvConfig) (now : Nat)
    (ttl : Option Nat) (cs : Option String) (tok : SignedJwt)
    (h : generateAccessToken payload env now ttl cs = .ok tok) :
    tok.exp - tok.iat = ttl.getD 3600 ∧ (ttl = none → tok.exp - tok.iat = 3600) := by
  obtain ⟨s, hostname, hs, hne, hm, hu, htok⟩ :=
    (generateAccessToken_ok_iff payload env now ttl cs tok).mp h
  subst htok
  rw [tokenFor_exp, tokenFor_iat]
  constructor
  · omega
  · intro h0
    subst h0
    simp

/-- Witness for C7: an omitted ttl yields an expiry 3600 seconds after the
issue instant. -/
theorem generateAccessToken_exp_iat_ttl_witness :
    (tokenFor samplePayload emptyEnv 1700000000 none "abc:aXNz:c2VjcmV0"
        "cdn.example.com").exp
      - (tokenFor samplePayload emptyEnv 1700000000 none "abc:aXNz:c2VjcmV0"
        "cdn.example.com").iat = 3600 :=
  (generateAccessToken_exp_iat_ttl samplePayload emptyEnv 1700000000 none
    (some "abc:aXNz:c2VjcmV0")
    (tokenFor samplePayload emptyEnv 1700000000 none "abc:aXNz:c2VjcmV0"
      "cdn.example.com")
    (by decide)).2 rfl

/-- Counterexample to C8 as stated: supplying the empty string as `userId`
is a valid invocation (the call succeeds), yet the produced token carries no
`sub` claim, because the source tests the user id for JavaScript truthiness
rather than presence. -/
theorem generateAccessToken_sub_cex :
    (generateAccessToken { samplePayload with userId := some "" } emptyEnv 0 none
      (some "abc:aXNz:c2VjcmV0")).toOption.map SignedJwt.sub = some none := by decide

/-- Claim C8 as amended: the `sub` claim is present if and only if a
non-empty `userId` was supplied, in which case it equals that user id; it is
absent when `userId` is absent or empty. -/
theorem generateAccessToken_sub_amended
    (payload : ContentCloudJwtPayload) (env : EnvConfig) (now : Nat)
    (ttl : Option Nat) (cs : Option String) (tok : SignedJwt)
    (h : generateAccessToken payload env now ttl cs = .ok tok) :
    (∀ u, payload.userId = some u → u ≠ "" → tok.sub = some u) ∧
      ((payload.userId = none ∨ payload.userId = some "") → tok.sub = none) := by
  obtain ⟨s, hostname, hs, hne, hm, hu, htok⟩ :=
    (generateAccessToken_ok_iff payload env now ttl cs tok).mp h
  subst htok
  constructor
  · intro u hu0 hune
    rw [tokenFor_sub, hu0]
    simp [jsTruthy, hune]
  · rintro (h0 | h0) <;> rw [tokenFor_sub, h0] <;> simp [jsTruthy]

/-- Witness for the amended C8: a non-empty user id becomes the `sub`
claim. -/
theorem generateAccessToken_sub_amended_witness :
    (tokenFor { samplePayload with userId := some "auth0:42" } emptyEnv 0 none
      "abc:aXNz:c2VjcmV0" "cdn.example.com").sub = some "auth0:42" :=
  (generateAccessToken_sub_amended { samplePayload with userId := some "auth0:42" }
    emptyEnv 0 none (some "abc:aXNz:c2VjcmV0")
    (tokenFor { samplePayload with userId := some "auth0:42" } emptyEnv 0 none
      "abc:aXNz:c2VjcmV0" "cdn.example.com")
    (by decide)).1 "auth0:42" rfl (by decide)

/-- Claim C9: for every valid invocation, the header key identifier equals
`client:<clientId>:0`, where `clientId` is the first colon-delimited segment
of the resolved client secret and the trailing `0` is a constant. -/
theorem generateAccessToken_kid
    (payload : ContentCloudJwtPayload) (env : EnvConfig) (now : Nat)
    (ttl : Option Nat) (cs : Option String) (tok : SignedJwt)
    (h : generateAccessToken payload env now ttl cs = .ok tok) :
    ∃ s clientId, resolveClientSecret cs env = some s ∧
      (jsSplit s ':')[0]? = some clientId ∧
      tok.header.kid = "client:" ++ clientId ++ ":0" := by
  obtain ⟨s, hostname, hs, hne, hm, hu, htok⟩ :=
    (generateAccessToken_ok_iff payload env now ttl cs tok).mp h
  subst htok
  cases hsplit : jsSplit s ':' with
  | nil => exact absurd hsplit (jsSplit_ne_nil s ':')
  | cons a t =>
    refine ⟨s, a, hs, by rw [hsplit]; simp, ?_⟩
    rw [tokenFor_header]
    dsimp only
    rw [hsplit]
    simp

/-- Witness for C9. -/
theorem generateAccessToken_kid_witness :
    ∃ s clientId, resolveClientSecret (some "abc:aXNz:c2VjcmV0") emptyEnv = some s ∧
      (jsSplit s ':')[0]? = some clientId ∧
      (tokenFor samplePayload emptyEnv 0 none "abc:aXNz:c2VjcmV0"
        "cdn.example.com").header.kid = "client:" ++ clientId ++ ":0" :=
  generateAccessToken_kid samplePayload emptyEnv 0 none (some "abc:aXNz:c2VjcmV0")
    (tokenFor samplePayload emptyEnv 0 none "abc:aXNz:c2VjcmV0" "cdn.example.com")
    (by decide)

/-- Claim C10: when no `spaceId` is supplied and no process-wide space-id
fallback is configured, `generateAccessToken` still succeeds (given a usable
secret and base URL) and the produced scope contains exactly one entry equal
to the literal string `space:undefined`. -/
theorem generateAccessToken_space_undefined
    (payload : ContentCloudJwtPayload) (env : EnvConfig) (now : Nat)
    (ttl : Option Nat) (cs : Option String) (s : String)
    (hsp : payload.spaceId = none) (hcfg : env.CC_SPACE_ID = none)
    (hs : resolveClientSecret cs env = some s) (hne : s ≠ "")
    (hm : secretPartsMalformed s = false)
    (hu : (urlHostname (jsInterp (resolveBaseUrl payload env))).isSome = true) :
    ∃ tok, generateAccessToken payload env now ttl cs = .ok tok ∧
      tok.scope.count "space:undefined" = 1 := by
  obtain ⟨hostname, hu'⟩ := Option.isSome_iff_exists.mp hu
  refine ⟨tokenFor payload env now ttl s hostname,
    (generateAccessToken_ok_iff payload env now ttl cs _).mpr
      ⟨s, hostname, hs, hne, hm, hu', rfl⟩, ?_⟩
  rw [tokenFor_scope]
  unfold buildScope
  rw [hsp, hcfg]
  have hone : (["space:" ++ jsInterp ((none : Option String) <|> none)] :
      List String).count "space:undefined" = 1 := by decide
  have hperm : ∀ o : Option (List ContentCloudPermission),
      ((match o with
        | some ps => ps.map ContentCloudPermission.value
        | none => []) : List String).count "space:undefined" = 0 := by
    intro o
    cases o with
    | none => rfl
    | some ps =>
      rw [List.count_eq_zero]
      intro hmem
      obtain ⟨p, _, hp⟩ := List.mem_map.mp hmem
      exact permission_value_ne_space_undefined p hp
  have hserv : ∀ o : Option (List ContentCloudService),
      ((match o with
        | some ss => ss.map ContentCloudService.value
        | none => []) : List String).count "space:undefined" = 0 := by
    intro o
    cases o with
    | none => rfl
    | some ss =>
      rw [List.count_eq_zero]
      intro hmem
      obtain ⟨sv, _, hsv⟩ := List.mem_map.mp hmem
      exact service_value_ne_space_undefined sv hsv
  have henv : ((match payload.environmentIds with
      | some ids => ids.map (fun envId => "environment:" ++ envId)
      | none =>
        if jsTruthy env.CC_ENVIRONMENT_ID then
          ["environment:" ++ env.CC_ENVIRONMENT_ID.getD ""]
        else ["environment:*"]) : List String).count "space:undefined" = 0 := by
    cases payload.environmentIds with
    | some ids =>
      rw [List.count_eq_zero]
      intro hmem
      obtain ⟨i, _, hi⟩ := List.mem_map.mp hmem
      exact @string_append_ne_of_head "environment:" i "space:undefined" 'e' 's'
        rfl rfl (by decide) hi
    | none =>
      dsimp only
      split
      · rw [List.count_eq_zero]
        intro hmem
        rcases List.mem_cons.mp hmem with h0 | h0
        · exact @string_append_ne_of_head "environment:" (env.CC_ENVIRONMENT_ID.getD "")
            "space:undefined" 'e' 's' rfl rfl (by decide) h0.symm
        · simp at h0
      · decide
  have hud : ∀ o : Option (List String),
      ((match o with
        | some cts => cts.map (fun ct => "content-user-data:" ++ ct)
        | none => []) : List String).count "space:undefined" = 0 := by
    intro o
    cases o with
    | none => rfl
    | some cts =>
      rw [List.count_eq_zero]
      intro hmem
      obtain ⟨ct, _, hct⟩ := List.mem_map.mp hmem
      exact @string_append_ne_of_head "content-user-data:" ct "space:undefined" 'c' 's'
        rfl rfl (by decide) hct
  simp only [List.count_append, hperm, hserv, henv, hud, hone]

/-- Witness for C10. -/
theorem generateAccessToken_space_undefined_witness :
    ∃ tok, generateAccessToken { samplePayload with spaceId := none } emptyEnv 0 none
      (some "abc:aXNz:c2VjcmV0") = .ok tok ∧
      tok.scope.count "space:undefined" = 1 :=
  generateAccessToken_space_undefined { samplePayload with spaceId := none }
    emptyEnv 0 none (some "abc:aXNz:c2VjcmV0") "abc:aXNz:c2VjcmV0"
    rfl rfl (by decide) (by decide) (by decide) (by decide)
